import Mathlib

/-!
Shallow embedding of the course-data normalization engine of
fairway-tracker (src/backend/app.py): scorecard parsing
(`_parse_scorecard` and its two format handlers), tee-name cleaning
(`_clean_tee_name`), tee color guessing (`_guess_tee_color`), the tee
assembly core of `get_course_details` (lines 798-932), and
`_merge_custom_tees`.

Python exceptions that escape a function are modelled as `Except.error ()`;
caught exceptions follow the source's handlers. JSON values are modelled
by `JVal` (the float case does not occur in any input exercised here and
is omitted). Python dicts preserve insertion order, and assignment to an
existing key keeps its position; the association lists below mirror this.
-/

/-- JSON-like values as decoded by json.loads. -/
inductive JVal where
  | null
  | bool (b : Bool)
  | int (n : Int)
  | str (s : String)
  | arr (xs : List JVal)
  | obj (kvs : List (String × JVal))

abbrev PyDict := List (String × JVal)

/-- Python truthiness of a JSON value. -/
def truthy : JVal → Bool
  | .null => false
  | .bool b => b
  | .int n => n != 0
  | .str s => s != ""
  | .arr xs => !xs.isEmpty
  | .obj kvs => !kvs.isEmpty

/-- Association-list lookup (first binding wins; bindings are unique by
construction, mirroring a Python dict). -/
def aget? {κ α : Type} [BEq κ] (d : List (κ × α)) (k : κ) : Option α :=
  (d.find? (fun kv => kv.1 == k)).map (·.2)

/-- Key membership, `k in d`. -/
def amem {κ α : Type} [BEq κ] (d : List (κ × α)) (k : κ) : Bool :=
  (d.find? (fun kv => kv.1 == k)).isSome

/-- Dict assignment `d[k] = v`: replaces an existing binding in place
(keeping its position) or appends a new one, as a CPython dict does. -/
def aset {κ α : Type} [BEq κ] (d : List (κ × α)) (k : κ) (v : α) : List (κ × α) :=
  match d with
  | [] => [(k, v)]
  | (k', v') :: rest => if k' == k then (k, v) :: rest else (k', v') :: aset rest k v

/-- Python `d.get(k)` on a JSON object. -/
def pyGet? (d : PyDict) (k : String) : Option JVal := aget? d k

/-- Python `d.get(k, dflt)`. -/
def pyGetD (d : PyDict) (k : String) (dflt : JVal) : JVal := (pyGet? d k).getD dflt

/-- Python `k in d`. -/
def pyContains (d : PyDict) (k : String) : Bool := amem d k

/-- Python `d[k] = v`. -/
def pySet (d : PyDict) (k : String) (v : JVal) : PyDict := aset d k v

/-- Python `a or b` on JSON values (`b` having already been evaluated). -/
def pyOr (a b : JVal) : JVal := if truthy a then a else b

/-- ASCII whitespace stripped by str.strip(); the inputs exercised here
are ASCII. -/
def isPySpace (c : Char) : Bool :=
  c == ' ' || c == '\t' || c == '\n' || c == '\r' || c == '\x0b' || c == '\x0c'

/-- Removal of the maximal trailing run of characters satisfying `p`. -/
def dropTrailing (p : Char → Bool) : List Char → List Char
  | [] => []
  | a :: t =>
    match dropTrailing p t with
    | [] => if p a then [] else [a]
    | r => a :: r

/-- Python str.strip() on a character list. -/
def stripL (l : List Char) : List Char := dropTrailing isPySpace (l.dropWhile isPySpace)

/-- Python str.strip(). -/
def pyStrip (s : String) : String := String.mk (stripL s.toList)

/-- Python s.rstrip(c) for a one-character strip set. -/
def pyRstrip (c : Char) (s : String) : String :=
  String.mk (dropTrailing (fun x => x == c) s.toList)

/-- Python str.lower(); the inputs exercised here are ASCII. -/
def pyLower (s : String) : String := String.mk (s.toList.map Char.toLower)

/-- Value of a run of decimal digits as accepted by int(), allowing a
single underscore between two digits (PEP 515); none on an ill-formed
run. -/
def digitsVal (acc : Nat) : List Char → Option Nat
  | [] => some acc
  | c :: rest =>
    if c.isDigit then digitsVal (acc * 10 + (c.toNat - 48)) rest
    else if c == '_' then
      match rest with
      | [] => none
      | d :: rest' => if d.isDigit then digitsVal (acc * 10 + (d.toNat - 48)) rest' else none
    else none

/-- Nonempty digit run starting with a digit. -/
def parseDigits : List Char → Option Nat
  | [] => none
  | c :: rest => if c.isDigit then digitsVal (c.toNat - 48) rest else none

/-- Python int(s) on a string: surrounding whitespace allowed, optional
sign, then decimal digits; none models the ValueError (which every
caller here catches). -/
def pyIntOfStr (s : String) : Option Int :=
  let cs := dropTrailing isPySpace (s.toList.dropWhile isPySpace)
  match cs with
  | '+' :: rest => (parseDigits rest).map Int.ofNat
  | '-' :: rest => (parseDigits rest).map (fun n => -(Int.ofNat n : Int))
  | _ => (parseDigits cs).map Int.ofNat

/-- Python int(v): ints unchanged, bools 0/1, numeric strings parsed;
anything else raises ValueError/TypeError, returned as none (the callers
in the scorecard parsers catch exactly those exceptions). -/
def pyToInt : JVal → Option Int
  | .int n => some n
  | .bool b => some (if b then 1 else 0)
  | .str s => pyIntOfStr s
  | _ => none

/-- Effect of re.sub(r'\s*\([^)]*\)\s*$', '', s) on a character list:
when the string, after any trailing whitespace, ends with a `)` whose
matching segment back to the nearest `(` contains no other `)`, the
leftmost such match (the earliest eligible `(`, together with the
whitespace run just before it and everything after it) is removed;
otherwise the string is unchanged. -/
def removeTrailingParenL (l : List Char) : List Char :=
  let t := dropTrailing isPySpace l
  if t.getLast? == some ')' then
    let body := t.dropLast
    let seg := (body.reverse.takeWhile (fun c => c != ')')).reverse
    if seg.contains '(' then
      let pre := body.take (body.length - seg.length) ++ seg.takeWhile (fun c => c != '(')
      dropTrailing isPySpace pre
    else l
  else l

/-- String wrapper for the trailing-parenthetical removal. -/
def removeTrailingParen (s : String) : String := String.mk (removeTrailingParenL s.toList)

/-- Embedding of _clean_tee_name (app.py lines 156-162): strip, rstrip
all trailing colons, drop one trailing parenthetical group, strip. -/
def clean_tee_name (raw : String) : String :=
  pyStrip (removeTrailingParen (pyRstrip ':' (pyStrip raw)))

/-- Substring containment, Python `needle in hay`. -/
def listHasInfix (needle : List Char) : List Char → Bool
  | [] => needle.isEmpty
  | c :: rest => needle.isPrefixOf (c :: rest) || listHasInfix needle rest

/-- Python `needle in hay` on strings. -/
def strContains (hay needle : String) : Bool := listHasInfix needle.toList hay.toList

/-- Ordered color substring scan list of _guess_tee_color. -/
def colorScanList : List String :=
  ["black", "blue", "white", "gold", "red", "green", "silver", "yellow"]

/-- Embedding of _guess_tee_color (app.py lines 999-1017). -/
def guess_tee_color (tee_name : String) : String :=
  let name := pyLower tee_name
  match colorScanList.find? (fun c => strContains name c) with
  | some c => if c == "yellow" then "gold" else c
  | none =>
    if strContains name "champ" || strContains name "tips" then "black"
    else if strContains name "back" then "blue"
    else if strContains name "middle" then "white"
    else if strContains name "senior" || strContains name "forward" || strContains name "ladies" then "red"
    else if strContains name "bronze" || strContains name "copper" then "gold"
    else "gray"

/-- Hole labels that can appear as keys of the extracted maps. Python
bools unify with ints as dict keys (True == 1), so they are canonicalized
to ints; unhashable labels never reach a map (their insertions raise a
TypeError that the source catches). -/
inductive HKey where
  | int (n : Int)
  | str (s : String)
deriving DecidableEq, Repr

abbrev HMap := List (HKey × Int)

/-- Maps extracted by either scorecard format handler:
(par_holes, handicap_holes, tee_yardages). -/
structure RowMaps where
  par : HMap
  hcp : HMap
  tees : List (String × HMap)
deriving DecidableEq, Repr

/-- Lookup with default, `d.get(h, dflt)`. -/
def hgetD (d : HMap) (k : HKey) (dflt : Int) : Int := (aget? d k).getD dflt

/-- Row keys skipped by every branch of the row-format handler. -/
def rowSkipKey (k : String) : Bool :=
  k == "Hole:" || k == "Hole" || k == "Out" || k == "In" || k == "Total"

/-- Body of the par/handicap/tee branches of the row-format handler:
collect int(key) -> int(val) over the row's fields, skipping the label
and Out/In/Total columns and silently skipping non-integer pairs. -/
def collectHoleInts (kvs : PyDict) (acc : HMap) : HMap :=
  kvs.foldl (fun m kv =>
    if rowSkipKey kv.1 then m
    else
      match pyIntOfStr kv.1, pyToInt kv.2 with
      | some hk, some v => aset m (HKey.int hk) v
      | _, _ => m) acc

/-- Sum of a map's values. -/
def sumVals (l : HMap) : Int := l.foldl (fun a kv => a + kv.2) 0

/-- Loop body of _parse_scorecard_row_format for one row. A non-object
row, or a non-string label value, raises (AttributeError on .get or
.strip) and is surfaced as an error. -/
def rowFormatStep (m : RowMaps) (row : JVal) : Except Unit RowMaps :=
  match row with
  | .obj kvs =>
    match pyGetD kvs "Hole:" (pyGetD kvs "Hole" (.str "")) with
    | .str s =>
      let label_raw := pyStrip s
      let label := pyLower (pyStrip (pyRstrip ':' label_raw))
      if label == "par" then
        .ok { m with par := collectHoleInts kvs m.par }
      else if label == "handicap" || label == "hdcp" then
        .ok { m with hcp := collectHoleInts kvs m.hcp }
      else if label != "" && label != "hole" then
        let tee_name := clean_tee_name (pyRstrip ':' label_raw)
        let hole_yards := collectHoleInts kvs []
        if !hole_yards.isEmpty && sumVals hole_yards > 0 then
          .ok { m with tees := aset m.tees tee_name hole_yards }
        else .ok m
      else .ok m
    | _ => .error ()
  | _ => .error ()

/-- Embedding of _parse_scorecard_row_format (app.py lines 165-216). -/
def parse_scorecard_row_format (rows : List JVal) : Except Unit RowMaps :=
  rows.foldlM rowFormatStep ⟨[], [], []⟩

/-- Hole label as a dict key: ints and bools unify, strings stay strings;
none stands for an unhashable label, whose insertions all raise a caught
TypeError. -/
def holeKey? : JVal → Option HKey
  | .int n => some (.int n)
  | .bool b => some (.int (if b then 1 else 0))
  | .str s => some (.str s)
  | _ => none

/-- Tee display name selected by the per-hole handler:
tee_data.get("color") or tee_data.get("name") or tee_key, cleaned. A
non-string selection raises in _clean_tee_name's .strip(). -/
def perHoleTeeName (tee_key : String) (td : PyDict) : Except Unit String :=
  match pyOr (pyGetD td "color" .null) (pyOr (pyGetD td "name" .null) (.str tee_key)) with
  | .str s => .ok (clean_tee_name s)
  | _ => .error ()

/-- Python `v is None` for JSON values. -/
def isNullJ : JVal → Bool
  | .null => true
  | _ => false

/-- Contribution of one tee sub-entry of one per-hole row: the (possibly
empty) sub-map for the tee name is created before the int(yards)
conversion is attempted, exactly as in the source (lines 252-257). -/
def perHoleTeeStep (hk? : Option HKey) (tees : List (String × HMap)) (tee_key : String)
    (td : JVal) : Except Unit (List (String × HMap)) :=
  match td with
  | .obj tdk => do
    let name ← perHoleTeeName tee_key tdk
    let yardsv := pyOr (pyGetD tdk "yards" .null) (pyGetD tdk "yardage" .null)
    if isNullJ yardsv then .ok tees
    else
      let tees1 := if amem tees name then tees else aset tees name []
      match hk?, pyToInt yardsv with
      | some hk, some y => .ok (aset tees1 name (aset ((aget? tees1 name).getD []) hk y))
      | _, _ => .ok tees1
  | _ => .error ()

/-- Loop body of _parse_scorecard_perhole_format for one entry. -/
def perHoleEntryStep (m : RowMaps) (entry : JVal) : Except Unit RowMaps :=
  match entry with
  | .obj kvs =>
    let holev := pyGetD kvs "Hole" .null
    if isNullJ holev then .ok m
    else
      let hk? := holeKey? holev
      let m1 :=
        let pv := pyGetD kvs "Par" .null
        if isNullJ pv then m
        else
          match hk?, pyToInt pv with
          | some hk, some n => { m with par := aset m.par hk n }
          | _, _ => m
      let m2 :=
        let hv := pyGetD kvs "Handicap" .null
        if isNullJ hv then m1
        else
          match hk?, pyToInt hv with
          | some hk, some n => { m1 with hcp := aset m1.hcp hk n }
          | _, _ => m1
      match pyGetD kvs "tees" (.obj []) with
      | .obj tkvs => do
        let tees ← tkvs.foldlM (fun ts kv => perHoleTeeStep hk? ts kv.1 kv.2) m2.tees
        .ok { m2 with tees := tees }
      | _ => .error ()
  | _ => .error ()

/-- Embedding of _parse_scorecard_perhole_format (app.py lines 219-259). -/
def parse_scorecard_perhole_format (rows : List JVal) : Except Unit RowMaps :=
  rows.foldlM perHoleEntryStep ⟨[], [], []⟩

/-- Python isinstance(v, int): bools are ints. -/
def isInstInt : JVal → Bool
  | .int _ => true
  | .bool _ => true
  | _ => false

/-- Format detection and dispatch (app.py lines 282-289): per-hole when
the first element has an integer Hole and a tees key, row-based when it
has a Hole:/Hole field, else no data; a non-object first element raises
AttributeError on .get. -/
def detectAndExtract (rows : List JVal) : Except Unit (Option RowMaps) :=
  match rows with
  | [] => .ok none
  | first :: _ =>
    match first with
    | .obj kvs =>
      if isInstInt (pyGetD kvs "Hole" .null) && pyContains kvs "tees" then
        (parse_scorecard_perhole_format rows).map some
      else if pyContains kvs "Hole:" || pyContains kvs "Hole" then
        (parse_scorecard_row_format rows).map some
      else .ok none
    | _ => .error ()

structure ParData where
  total : Option Int
  front : Option Int
  back : Option Int
  holes : List Int
deriving DecidableEq, Repr

structure TeeParsed where
  hole_yardages : List Int
  front_yardage : Int
  back_yardage : Int
  total_yardage : Int
deriving DecidableEq, Repr

structure ParsedScorecard where
  par : ParData
  handicap : Option (List (Option Int))
  tee_yardages : List (String × TeeParsed)
  num_holes : Int
deriving DecidableEq, Repr

/-- Hole labels collected into all_holes (app.py lines 295-298): par keys
and tee-yardage keys only; handicap keys are not included. -/
def allHoleKeys (m : RowMaps) : List HKey :=
  m.par.map (·.1) ++ m.tees.foldr (fun t acc => t.2.map (·.1) ++ acc) []

/-- Integer views of the hole labels; none models the TypeError raised by
max()/range() over non-integer labels. -/
def allInts? : List HKey → Option (List Int)
  | [] => some []
  | .int n :: ks => (allInts? ks).map (n :: ·)
  | .str _ :: _ => none

/-- Maximum of a nonempty collection given as head and tail. -/
def maxOf (x : Int) (l : List Int) : Int := l.foldl max x

/-- list(range(1, n + 1)). -/
def holeRange (n : Int) : List Int := (List.range n.toNat).map (fun i => (i : Int) + 1)

/-- Sum of d.get(h, 0) over the given holes. -/
def sumOver (d : HMap) (hs : List Int) : Int :=
  hs.foldl (fun a h => a + hgetD d (.int h) 0) 0

/-- Per-hole defaults [d.get(h, 0) for h in hr]. -/
def mapRangeD (d : HMap) (hr : List Int) : List Int := hr.map (fun h => hgetD d (.int h) 0)

/-- Par structure built by the shared post-processing (lines 305-318). -/
def parDataOf (d : HMap) (hr : List Int) : ParData :=
  let f := sumOver d (hr.filter (fun h => h ≤ 9))
  let b := sumOver d (hr.filter (fun h => 9 < h))
  { total := if f + b > 0 then some (f + b) else none
    front := if f > 0 then some f else none
    back := if b > 0 then some b else none
    holes := mapRangeD d hr }

/-- Handicap sequence (lines 320-322, 340): present only when some hole
has a value. -/
def handicapOf (d : HMap) (hr : List Int) : Option (List (Option Int)) :=
  let l := hr.map (fun h => aget? d (HKey.int h))
  if l.any (·.isSome) then some l else none

/-- Tee yardage breakdown (lines 326-336). -/
def teeParsedOf (d : HMap) (hr : List Int) : TeeParsed :=
  let f := sumOver d (hr.filter (fun h => h ≤ 9))
  let b := sumOver d (hr.filter (fun h => 9 < h))
  { hole_yardages := mapRangeD d hr
    front_yardage := f
    back_yardage := b
    total_yardage := f + b }

/-- Assembled result for a given num_holes (lines 302-343). -/
def postFields (m : RowMaps) (n : Int) : ParsedScorecard :=
  let hr := holeRange n
  { par := parDataOf m.par hr
    handicap := handicapOf m.hcp hr
    tee_yardages := m.tees.map (fun t => (t.1, teeParsedOf t.2 hr))
    num_holes := n }

/-- Shared post-processing (app.py lines 291-343). The sentinel is
returned when both maps are empty or no hole labels were collected; a
non-integer hole label raises (in max() over mixed labels, or in
range() after max() over all-string labels). -/
def postProcess (m : RowMaps) : Except Unit (Option ParsedScorecard) :=
  if m.par.isEmpty && m.tees.isEmpty then .ok none
  else
    match allInts? (allHoleKeys m) with
    | none => .error ()
    | some [] => .ok none
    | some (x :: xs) => .ok (some (postFields m (maxOf x xs)))

/-- Raw argument of _parse_scorecard. A Python string input is
represented by `malformedStr` (json.loads raises) or `jsonStr v`
(json.loads yields v; any JSON text is nonempty, hence truthy);
`decoded v` is an already-decoded non-string input; `absent` covers None
and every other falsy raw value (including the empty string). -/
inductive ScorecardInput where
  | absent
  | malformedStr
  | jsonStr (v : JVal)
  | decoded (v : JVal)

/-- Decoded-value step of _parse_scorecard (lines 279-289). -/
def extractDecoded (v : JVal) : Except Unit (Option RowMaps) :=
  match v with
  | .arr rows => if rows.isEmpty then .ok none else detectAndExtract rows
  | _ => .ok none

/-- Extraction front half of _parse_scorecard (lines 268-289): falsy,
undecodable and undetectable inputs produce no maps. -/
def extractMaps : ScorecardInput → Except Unit (Option RowMaps)
  | .absent => .ok none
  | .malformedStr => .ok none
  | .jsonStr v => extractDecoded v
  | .decoded v => if truthy v then extractDecoded v else .ok none

/-- Embedding of _parse_scorecard (app.py lines 262-343). -/
def parse_scorecard (raw : ScorecardInput) : Except Unit (Option ParsedScorecard) := do
  match ← extractMaps raw with
  | none => pure none
  | some m => postProcess m

/-- Python iteration over a JSON value where the raised TypeError on a
non-iterable would escape: lists yield their elements, strings their
characters, dicts their keys. -/
def iterElems : JVal → Except Unit (List JVal)
  | .arr xs => .ok xs
  | .str s => .ok (s.toList.map (fun c => .str (String.mk [c])))
  | .obj kvs => .ok (kvs.map (fun kv => .str kv.1))
  | _ => .error ()

/-- Python sum() over JSON values: ints and bools add; anything else
raises a TypeError that the route does not catch locally. -/
def sumInts (l : List JVal) : Except Unit Int :=
  l.foldlM (fun a v =>
    match v with
    | .int n => .ok (a + n)
    | .bool b => .ok (a + (if b then 1 else 0))
    | _ => .error ()) 0

/-- Python any(p > 0 for p in l): left to right with short-circuit; a
non-numeric comparison reached before a positive value raises. -/
def anyPos : List JVal → Except Unit Bool
  | [] => .ok false
  | v :: rest =>
    match v with
    | .int n => if n > 0 then .ok true else anyPos rest
    | .bool b => if b then .ok true else anyPos rest
    | _ => .error ()

/-- Mutable state of the gendered-tee loop (app.py lines 818-822).
course_par starts as None (null); num_holes as 18. -/
structure AsmState where
  final_tees : List (String × PyDict)
  par_data : Option PyDict
  handicap_data : Option JVal
  course_par : JVal
  num_holes : JVal

def initAsm : AsmState := ⟨[], none, none, .null, .int 18⟩

/-- Lower-cased cleaned key of one gendered tee entry, computed before
the duplicate check (lines 826-827). -/
def teeKeyOf (t : JVal) : Except Unit String :=
  match t with
  | .obj tkvs =>
    match pyGetD tkvs "tee_name" (.str "Unknown") with
    | .str ns => .ok (pyLower (clean_tee_name ns))
    | _ => .error ()
  | _ => .error ()

/-- Per-hole field extraction over the entry's holes array: h.get(field,
dflt) for each element; a non-object element raises on .get. -/
def holesField (holes_arr : List JVal) (field : String) (dflt : JVal) :
    Except Unit (List JVal) :=
  holes_arr.mapM (fun h =>
    match h with
    | .obj hk => Except.ok (pyGetD hk field dflt)
    | _ => Except.error ())

/-- Built tee record of one gendered tee entry (app.py lines 832-865),
given its cleaned display name. -/
def buildTeeRec (tkvs : PyDict) (tee_name : String) (hole_yardages : List JVal) :
    Except Unit (PyDict × JVal) := do
  let total_yards ←
    if truthy (pyGetD tkvs "total_yards" .null) then Except.ok (pyGetD tkvs "total_yards" .null)
    else do Except.ok (JVal.int (← sumInts hole_yardages))
  let lenH := hole_yardages.length
  let n_holes := pyOr (pyGetD tkvs "number_of_holes" .null)
    (pyOr (.int (Int.ofNat lenH)) (.int 18))
  let front_yds ← if lenH ≥ 9 then sumInts (hole_yardages.take 9) else sumInts hole_yardages
  let back_yds ← if lenH > 9 then sumInts (hole_yardages.drop 9) else Except.ok 0
  let slope := pyOr (pyGetD tkvs "slope_rating" .null) (pyGetD tkvs "slope" .null)
  let rating := pyOr (pyGetD tkvs "course_rating" .null) (pyGetD tkvs "rating" .null)
  Except.ok ([
    ("name", .str tee_name),
    ("color", .str (guess_tee_color tee_name)),
    ("total_yardage", total_yards),
    ("front_yardage", .int front_yds),
    ("back_yardage", .int back_yds),
    ("hole_yardages", if hole_yardages.isEmpty then .null else .arr hole_yardages),
    ("slope", slope),
    ("rating", rating),
    ("par", pyGetD tkvs "par_total" .null)], n_holes)

/-- Par-data update from the first tee with positive per-hole par data
(lines 867-878). -/
def updateParState (st : AsmState) (tkvs : PyDict) (hole_pars : List JVal) :
    Except Unit AsmState :=
  match st.par_data with
  | some _ => .ok st
  | none =>
    if hole_pars.isEmpty then .ok st
    else do
      let pos ← anyPos hole_pars
      if pos then do
        let par_front ←
          if hole_pars.length ≥ 9 then sumInts (hole_pars.take 9) else sumInts hole_pars
        let par_back ←
          if hole_pars.length > 9 then sumInts (hole_pars.drop 9) else Except.ok 0
        let par_total := pyOr (pyGetD tkvs "par_total" .null) (.int (par_front + par_back))
        Except.ok { st with
          par_data := some [
            ("total", par_total),
            ("front", if par_front > 0 then .int par_front else .null),
            ("back", if par_back > 0 then .int par_back else .null),
            ("holes", .arr hole_pars)]
          course_par := par_total }
      else .ok st

/-- Handicap-data update from the first tee with a non-null per-hole
handicap (lines 880-882). -/
def updateHandicapState (st : AsmState) (hole_handicaps : List JVal) : AsmState :=
  match st.handicap_data with
  | some _ => st
  | none =>
    if !hole_handicaps.isEmpty &&
        hole_handicaps.any (fun h => match h with | .null => false | _ => true) then
      { st with handicap_data := some (.arr hole_handicaps) }
    else st

/-- Course-par fallback from any tee's par_total (lines 884-886). -/
def updateCourseParState (st : AsmState) (tkvs : PyDict) : AsmState :=
  if !truthy st.course_par && truthy (pyGetD tkvs "par_total" .null) then
    { st with course_par := pyGetD tkvs "par_total" .null }
  else st

/-- Processing of one gendered tee entry (app.py lines 825-886): skip on
a duplicate key, else build the tee record and update par/handicap/
course-par state. -/
def processTeeEntry (st : AsmState) (t : JVal) : Except Unit AsmState :=
  match t with
  | .obj tkvs =>
    match pyGetD tkvs "tee_name" (.str "Unknown") with
    | .str ns =>
      let tee_name := clean_tee_name ns
      let key := pyLower tee_name
      if amem st.final_tees key then .ok st
      else do
        let holes_arr ← iterElems (pyGetD tkvs "holes" (.arr []))
        let hole_yardages ← holesField holes_arr "yardage" (.int 0)
        let hole_pars ← holesField holes_arr "par" (.int 0)
        let hole_handicaps ← holesField holes_arr "handicap" .null
        let built ← buildTeeRec tkvs tee_name hole_yardages
        let st := { st with
          final_tees := aset st.final_tees key built.1
          num_holes := built.2 }
        let st ← updateParState st tkvs hole_pars
        let st := updateHandicapState st hole_handicaps
        Except.ok (updateCourseParState st tkvs)
    | _ => .error ()
  | _ => .error ()

/-- Concatenated male-then-female tee entries (lines 824-825); a
non-object tees section raises AttributeError on .get. -/
def genderEntries (tees_raw : JVal) : Except Unit (List JVal) :=
  match tees_raw with
  | .obj kvs => do
    let m ← iterElems (pyGetD kvs "male" (.arr []))
    let f ← iterElems (pyGetD kvs "female" (.arr []))
    .ok (m ++ f)
  | _ => .error ()

/-- teeBoxes parsing (app.py lines 798-813). json.loads of an embedded
string is not modelled: a string value takes the caught-decode-failure
path (no claim below exercises one). A TypeError from iterating a
non-iterable is caught (keeping the empty partial result); the
AttributeError from a non-object element's .get, or from .strip() on a
non-string name, is not caught and escapes. -/
def parseTeeBoxesInfo (v : JVal) : Except Unit (List (String × PyDict)) :=
  if !truthy v then .ok []
  else
    match v with
    | .arr xs =>
      xs.foldlM (fun acc tb =>
        match tb with
        | .obj tkv =>
          match pyGetD tkv "name" (pyGetD tkv "tee_name" (.str "")) with
          | .str ns =>
            let tb_name := pyLower (clean_tee_name ns)
            if tb_name != "" then
              .ok (aset acc tb_name [
                ("slope", pyOr (pyGetD tkv "slope" .null) (pyGetD tkv "slope_rating" .null)),
                ("rating", pyOr (pyGetD tkv "rating" .null) (pyGetD tkv "course_rating" .null))])
            else .ok acc
          | _ => .error ()
        | _ => .error ()) []
    | .obj kvs => if kvs.isEmpty then .ok [] else .error ()
    | _ => .ok []

/-- Layering of teeBoxes slope/rating onto already-built tees (lines
888-894): fill only when the tee has no truthy value. -/
def layerTeeBoxes (final_tees : List (String × PyDict))
    (info : List (String × PyDict)) : List (String × PyDict) :=
  info.foldl (fun ft kv =>
    match aget? ft kv.1 with
    | none => ft
    | some tee =>
      let tee :=
        if truthy (pyGetD kv.2 "slope" .null) && !truthy (pyGetD tee "slope" .null) then
          pySet tee "slope" (pyGetD kv.2 "slope" .null)
        else tee
      let tee :=
        if truthy (pyGetD kv.2 "rating" .null) && !truthy (pyGetD tee "rating" .null) then
          pySet tee "rating" (pyGetD kv.2 "rating" .null)
        else tee
      aset ft kv.1 tee) final_tees

/-- Scorecard slot of the course object as parser input: null/absent is
falsy; a string slot would go through json.loads, which is not modelled
(no fixture below carries one) and is represented conservatively as a
decode failure. -/
def scorecardInputOf (v : JVal) : ScorecardInput :=
  match v with
  | .str _ => ScorecardInput.malformedStr
  | v => ScorecardInput.decoded v

/-- Merging of scorecard tee yardages into the built tees (lines
906-925). -/
def mergeScorecardTees (ft : List (String × PyDict))
    (sc : List (String × TeeParsed)) : List (String × PyDict) :=
  sc.foldl (fun ft td =>
    let key := pyLower td.1
    match aget? ft key with
    | some tee =>
      if !truthy (pyGetD tee "hole_yardages" .null) then
        let tee := pySet tee "hole_yardages" (.arr (td.2.hole_yardages.map JVal.int))
        let tee := pySet tee "front_yardage" (.int td.2.front_yardage)
        let tee := pySet tee "back_yardage" (.int td.2.back_yardage)
        aset ft key tee
      else ft
    | none =>
      aset ft key [
        ("name", .str td.1),
        ("color", .str (guess_tee_color td.1)),
        ("total_yardage", .int td.2.total_yardage),
        ("front_yardage", .int td.2.front_yardage),
        ("back_yardage", .int td.2.back_yardage),
        ("hole_yardages", .arr (td.2.hole_yardages.map JVal.int)),
        ("slope", .null),
        ("rating", .null)]) ft

/-- Tee-list pipeline of get_course_details before the final sort
(app.py lines 798-925), yielding final_tees.values() in insertion
order. The par/handicap assembly into the response record (lines
899-904, 936-946) affects no tee and is not embedded. -/
def assembleTeesCore (course_obj : PyDict) : Except Unit (List PyDict) := do
  let tb ← parseTeeBoxesInfo
    (pyOr (pyGetD course_obj "teeBoxes" .null) (pyGetD course_obj "tee_boxes" .null))
  let entries ← genderEntries (pyGetD course_obj "tees" (.obj []))
  let st ← entries.foldlM processTeeEntry initAsm
  let ft := layerTeeBoxes st.final_tees tb
  let sc ← parse_scorecard (scorecardInputOf (pyGetD course_obj "scorecard" .null))
  let ft :=
    match sc with
    | none => ft
    | some r => mergeScorecardTees ft r.tee_yardages
  .ok (ft.map (·.2))

/-- Sort key of line 930: t.get("total_yardage") or 0. Comparison is
modelled for numeric keys (ints and bools); sorted() raises a TypeError
on mixed-type keys, and the all-string case (which Python would sort
lexicographically) is not exercised by any input below and surfaces as
an error. -/
def sortKey? (t : PyDict) : Option Int :=
  match pyOr (pyGetD t "total_yardage" .null) (.int 0) with
  | .int n => some n
  | .bool b => some (if b then 1 else 0)
  | _ => none

/-- Stable descending insertion: x goes after every element with a key
at least its own, matching sorted(..., reverse=True), which keeps equal
elements in their original order. -/
def insertDescK {α : Type} (x : Int × α) : List (Int × α) → List (Int × α)
  | [] => [x]
  | y :: ys => if x.1 ≤ y.1 then y :: insertDescK x ys else x :: y :: ys

/-- Stable sort by precomputed key, descending. -/
def sortedDescK {α : Type} (l : List (Int × α)) : List (Int × α) :=
  l.foldl (fun acc x => insertDescK x acc) []

/-- Embedding of sorted(final_tees.values(), key=..., reverse=True)
(lines 927-932): the key is computed once per element; Python's sort is
stable and reverse=True keeps ties in original order. -/
def sortTeesDesc (l : List PyDict) : Except Unit (List PyDict) := do
  let keyed ← l.mapM (fun t =>
    match sortKey? t with
    | some n => Except.ok (n, t)
    | none => Except.error ())
  .ok ((sortedDescK keyed).map (·.2))

/-- Tee list of the assembled course record (lines 798-932). -/
def assembleTees (course_obj : PyDict) : Except Unit (List PyDict) := do
  sortTeesDesc (← assembleTeesCore course_obj)

/-- Lower-cased name of a tee dict, t.get("name", "").lower(); a
non-string name raises AttributeError on .lower(). -/
def lowerName (d : PyDict) : Except Unit String :=
  match pyGetD d "name" (.str "") with
  | .str s => .ok (pyLower s)
  | _ => .error ()

/-- Conditional fills applied to the matched tee (app.py lines 975-980):
slope, rating and total_yardage are written only when the custom value
is truthy and the tee's own value is not. -/
def applyCustomFill (ct t : PyDict) : PyDict :=
  let t1 :=
    if truthy (pyGetD ct "slope" .null) && !truthy (pyGetD t "slope" .null) then
      pySet t "slope" (pyGetD ct "slope" .null)
    else t
  let t2 :=
    if truthy (pyGetD ct "rating" .null) && !truthy (pyGetD t1 "rating" .null) then
      pySet t1 "rating" (pyGetD ct "rating" .null)
    else t1
  if truthy (pyGetD ct "yardage" .null) && !truthy (pyGetD t2 "total_yardage" .null) then
    pySet t2 "total_yardage" (pyGetD ct "yardage" .null)
  else t2

/-- Update of the first existing tee whose lower-cased name matches the
custom tee's (app.py lines 973-981), then break; when no element
matches, nothing happens. -/
def updateMatchingTee (ct : PyDict) (ct_name : String) :
    List PyDict → Except Unit (List PyDict)
  | [] => .ok []
  | t :: rest => do
    let nm ← lowerName t
    if nm == ct_name then
      .ok (applyCustomFill ct t :: rest)
    else do
      let rest' ← updateMatchingTee ct ct_name rest
      .ok (t :: rest')

/-- New tee appended for an unmatched custom tee (app.py lines 983-994);
ct["name"] raises KeyError when absent and guess_tee_color raises on a
non-string name. -/
def appendedCustomTee (ct : PyDict) : Except Unit PyDict :=
  match pyGet? ct "name" with
  | some (.str s) => .ok [
      ("name", .str s),
      ("color", .str (guess_tee_color s)),
      ("total_yardage", pyGetD ct "yardage" .null),
      ("slope", pyGetD ct "slope" .null),
      ("rating", pyGetD ct "rating" .null),
      ("front_yardage", .null),
      ("back_yardage", .null),
      ("hole_yardages", .null),
      ("added_by_user", .bool true)]
  | some _ => .error ()
  | none => .error ()

/-- Loop body of _merge_custom_tees over one stored custom tee (lines
969-994). `names` is the set of existing lower-cased names computed once
before the loop; `appendable` records whether course_data["tees"] is a
list (or absent, in which case setdefault creates one) so that .append
is legal. -/
def mergeCustomStep (names : List String) (appendable : Bool)
    (acc : List PyDict × Bool) (ct : JVal) : Except Unit (List PyDict × Bool) :=
  match ct with
  | .obj ctD => do
    let ct_name ← lowerName ctD
    if names.contains ct_name then do
      let tees' ← updateMatchingTee ctD ct_name acc.1
      .ok (tees', acc.2)
    else
      if appendable then do
        let nt ← appendedCustomTee ctD
        .ok (acc.1 ++ [nt], true)
      else .error ()
  | _ => .error ()

/-- Embedding of _merge_custom_tees (app.py lines 959-996), with the
stored custom tees passed in (the file read and the early return when
the course id has no entry happen outside this core). The mutation of
course_data["tees"] in place is modelled by writing the final list back;
when the key was absent it is added only if setdefault ran (some custom
tee was appended). -/
def merge_custom_tees (cts : List JVal) (course_data : PyDict) : Except Unit PyDict := do
  let teesV := pyGet? course_data "tees"
  let tees0 ← match teesV.getD (.arr []) with
    | .arr xs => xs.mapM (fun t =>
        match t with
        | .obj d => Except.ok d
        | _ => Except.error ())
    | .str s => if s.isEmpty then .ok [] else .error ()
    | .obj kvs => if kvs.isEmpty then .ok [] else .error ()
    | _ => .error ()
  let names ← tees0.mapM lowerName
  let appendable := match teesV with
    | none => true
    | some (.arr _) => true
    | _ => false
  let res ← cts.foldlM (mergeCustomStep names appendable) (tees0, false)
  match teesV with
  | some (.arr _) => .ok (pySet course_data "tees" (.arr (res.1.map JVal.obj)))
  | some _ => .ok course_data
  | none =>
    if res.2 then .ok (pySet course_data "tees" (.arr (res.1.map JVal.obj)))
    else .ok course_data

/-- Relation between an original tee dict and its custom-merge update:
only slope, rating and total_yardage may differ, and a field with a
truthy (present) value is never changed. -/
def fillsOnly (d d' : PyDict) : Prop :=
  (∀ k, ¬(k = "slope" ∨ k = "rating" ∨ k = "total_yardage") → pyGet? d' k = pyGet? d k) ∧
  (truthy (pyGetD d "slope" .null) = true → pyGet? d' "slope" = pyGet? d "slope") ∧
  (truthy (pyGetD d "rating" .null) = true → pyGet? d' "rating" = pyGet? d "rating") ∧
  (truthy (pyGetD d "total_yardage" .null) = true →
    pyGet? d' "total_yardage" = pyGet? d "total_yardage")

/-- Fixture of the C5 scenario: the spec's row-based input. -/
def c5input : JVal := .arr [
  .obj [("Hole:", .str "Par"), ("1", .str "4"), ("2", .str "5")],
  .obj [("Hole:", .str "Blue"), ("1", .str "380"), ("2", .str "410")]]

/-- Fixture for C2: par data at hole 1, handicap data at holes 1 and 2;
the claim predicts num_holes = 2. -/
def c2cex : JVal := .arr [
  .obj [("Hole:", .str "Par"), ("1", .str "4")],
  .obj [("Hole:", .str "Handicap"), ("2", .str "3")]]

/-- Parse result of c2cex on the code: the handicap-only hole 2 does not
extend the range, and its handicap value is dropped with it. -/
def c2result : ParsedScorecard :=
  { par := { total := some 4, front := some 4, back := none, holes := [4] }
    handicap := none
    tee_yardages := []
    num_holes := 1 }

/-- Fixture for the C2 witness: a plain par-only scorecard. -/
def c2winput : JVal := .arr [.obj [("Hole:", .str "Par"), ("1", .str "4")]]

/-- Fixture for C6: a per-hole scorecard whose only tee has an
unparseable yards value, leaving a nonempty tee map with an empty
sub-map. -/
def c6cex : JVal := .arr [
  .obj [("Hole", .int 1),
        ("tees", .obj [("a", .obj [("color", .str "Blue"), ("yards", .str "x")])])]]

/-- Maps extracted from c6cex: the tee map is nonempty. -/
def c6maps : RowMaps := { par := [], hcp := [], tees := [("Blue", [])] }

/-- Fixture for the C6 witness: a handicap-only scorecard. -/
def c6winput : JVal := .arr [.obj [("Hole:", .str "Handicap"), ("1", .str "7")]]

/-- Fixture of the C3 scenario: the same tee name in both gender
sections with different yardages. -/
def c3obj : PyDict := [("tees", .obj [
  ("male", .arr [.obj [("tee_name", .str "Blue"), ("total_yards", .int 6200)]]),
  ("female", .arr [.obj [("tee_name", .str "Blue"), ("total_yards", .int 5400)]])])]

/-- Assembled Blue tee of c3obj: the male section's 6200 yards win. -/
def c3tee : PyDict := [
  ("name", .str "Blue"), ("color", .str "blue"), ("total_yardage", .int 6200),
  ("front_yardage", .int 0), ("back_yardage", .int 0), ("hole_yardages", .null),
  ("slope", .null), ("rating", .null), ("par", .null)]

/-- State with the key "blue" already present, for the C3 witness. -/
def c3st : AsmState :=
  { final_tees := [("blue", [("name", .str "Blue")])], par_data := none,
    handicap_data := none, course_par := .null, num_holes := .int 18 }

/-- Duplicate Blue entry processed after c3st, for the C3 witness. -/
def c3dup : JVal := .obj [("tee_name", .str "Blue"), ("total_yards", .int 5400)]

/-- Fixture for C9: one longer tee and two equal-yardage tees whose
relative order must survive the sort. -/
def c9obj : PyDict := [("tees", .obj [
  ("male", .arr [.obj [("tee_name", .str "Red"), ("total_yards", .int 5400)],
                 .obj [("tee_name", .str "Blue"), ("total_yards", .int 6200)]]),
  ("female", .arr [.obj [("tee_name", .str "White"), ("total_yards", .int 5400)]])])]

/-- Sorted tee list of c9obj: Blue first, then Red and White in
insertion order (their yardages tie). -/
def c9sorted : List PyDict := [
  [("name", .str "Blue"), ("color", .str "blue"), ("total_yardage", .int 6200),
   ("front_yardage", .int 0), ("back_yardage", .int 0), ("hole_yardages", .null),
   ("slope", .null), ("rating", .null), ("par", .null)],
  [("name", .str "Red"), ("color", .str "red"), ("total_yardage", .int 5400),
   ("front_yardage", .int 0), ("back_yardage", .int 0), ("hole_yardages", .null),
   ("slope", .null), ("rating", .null), ("par", .null)],
  [("name", .str "White"), ("color", .str "white"), ("total_yardage", .int 5400),
   ("front_yardage", .int 0), ("back_yardage", .int 0), ("hole_yardages", .null),
   ("slope", .null), ("rating", .null), ("par", .null)]]

/-- Fixture of the C4 scenario: an existing Blue tee with slope 120. -/
def c4course : PyDict := [("tees", .arr [.obj [("name", .str "Blue"), ("slope", .int 120)]])]

/-- Stored custom tee with the same name and slope 130. -/
def c4cts : List JVal := [.obj [("name", .str "Blue"), ("slope", .int 130)]]

/-- Modelled from the spec (as amended by c8_single_colon_false): strip
surrounding whitespace, strip all trailing colons, remove one trailing
parenthetical group anchored at the string's end, trim again. -/
def clean_tee_name_spec (raw : String) : String :=
  pyStrip (removeTrailingParen (pyRstrip ':' (pyStrip raw)))

/-! Theorems. -/

theorem dropTrailing_cons (p : Char → Bool) (a : Char) (t : List Char) :
    dropTrailing p (a :: t) =
      match dropTrailing p t with
      | [] => if p a then [] else [a]
      | r => a :: r := rfl

theorem dropTrailing_idem (p : Char → Bool) (l : List Char) :
    dropTrailing p (dropTrailing p l) = dropTrailing p l := by
  induction l with
  | nil => rfl
  | cons a t ih =>
    rw [dropTrailing_cons]
    cases h : dropTrailing p t with
    | nil =>
      cases hp : p a with
      | false => simp [dropTrailing, hp]
      | true => simp only [if_true]; rfl
    | cons b r =>
      rw [h] at ih
      simp only
      rw [dropTrailing_cons, ih]

theorem dropTrailing_of_getLast? (p : Char → Bool) (l : List Char)
    (h : ∀ x, l.getLast? = some x → p x = false) :
    dropTrailing p l = l := by
  induction l with
  | nil => rfl
  | cons a t ih =>
    cases t with
    | nil =>
      have := h a rfl
      simp [dropTrailing, this]
    | cons b t' =>
      have hgl : (a :: b :: t').getLast? = (b :: t').getLast? := List.getLast?_cons_cons ..
      have ih' := ih (fun x hx => h x (by rw [hgl]; exact hx))
      rw [dropTrailing_cons, ih']

theorem dropWhile_head_false (p : Char → Bool) (l : List Char) (c : Char) (rest : List Char)
    (h : l.dropWhile p = c :: rest) : p c = false := by
  induction l with
  | nil => simp at h
  | cons a t ih =>
    rw [List.dropWhile_cons] at h
    by_cases hp : p a
    · simp [hp] at h; exact ih h
    · simp [hp] at h
      rw [← h.1]
      exact eq_false_of_ne_true hp

theorem dropTrailing_head? (p : Char → Bool) (l : List Char) :
    dropTrailing p l = [] ∨ (dropTrailing p l).head? = l.head? := by
  cases l with
  | nil => exact Or.inl rfl
  | cons a t =>
    rw [dropTrailing_cons]
    cases h : dropTrailing p t with
    | nil =>
      cases hp : p a with
      | true => exact Or.inl (by simp)
      | false => exact Or.inr (by simp)
    | cons b r => exact Or.inr rfl

theorem dropWhile_dropTrailing_dropWhile (p : Char → Bool) (l : List Char) :
    (dropTrailing p (l.dropWhile p)).dropWhile p = dropTrailing p (l.dropWhile p) := by
  rcases dropTrailing_head? p (l.dropWhile p) with h | h
  · rw [h]; rfl
  · cases hd : dropTrailing p (l.dropWhile p) with
    | nil => rfl
    | cons c v =>
      rw [hd] at h
      have hc : p c = false := by
        cases hu : l.dropWhile p with
        | nil => rw [hu] at hd; simp [dropTrailing] at hd
        | cons u us =>
          rw [hu] at h
          simp at h
          rw [h]
          exact dropWhile_head_false p l u us hu
      simp [List.dropWhile_cons, hc]

theorem stripL_idem (l : List Char) : stripL (stripL l) = stripL l := by
  unfold stripL
  rw [dropWhile_dropTrailing_dropWhile, dropTrailing_idem]

theorem dropTrailing_stripL (l : List Char) :
    dropTrailing isPySpace (stripL l) = stripL l := by
  unfold stripL; rw [dropTrailing_idem]

theorem removeTrailingParenL_stable (l : List Char)
    (hstripped : dropTrailing isPySpace l = l)
    (h : (l.getLast? == some ')') = false) :
    removeTrailingParenL l = l := by
  simp only [removeTrailingParenL]
  rw [hstripped, h]
  simp

/-- C5: on the row-based input [{"Hole:":"Par","1":"4","2":"5"},
{"Hole:":"Blue","1":"380","2":"410"}], parse_scorecard returns
par.holes = [4,5], a "Blue" tee with total_yardage 790, front 790,
back 0, and num_holes 2. -/
theorem c5_row_based_scenario :
    parse_scorecard (.decoded c5input) = .ok (some {
      par := { total := some 9, front := some 9, back := none, holes := [4, 5] },
      handicap := none,
      tee_yardages := [("Blue", { hole_yardages := [380, 410], front_yardage := 790,
                                  back_yardage := 0, total_yardage := 790 })],
      num_holes := 2 }) := by rfl

/-- C7 counterexample: tee-name cleaning is not idempotent; on
"Blue: (2023)" one cleaning yields "Blue:" (the removed parenthetical
exposes a trailing colon) and a second cleaning yields "Blue". -/
theorem c7_clean_not_idempotent :
    clean_tee_name (clean_tee_name "Blue: (2023)") ≠ clean_tee_name "Blue: (2023)" := by
  decide

/-- C7 as amended: cleaning is idempotent on every input whose cleaned
form ends in neither a colon nor a closing parenthesis (the two shapes a
second pass would strip further). -/
theorem c7_clean_idempotent_on_stable (x : String)
    (h1 : (clean_tee_name x).toList.getLast? ≠ some ':')
    (h2 : (clean_tee_name x).toList.getLast? ≠ some ')') :
    clean_tee_name (clean_tee_name x) = clean_tee_name x := by
  unfold clean_tee_name at *
  set w := removeTrailingParen (pyRstrip ':' (pyStrip x)) with hw
  have hstrip : pyStrip (pyStrip w) = pyStrip w := by
    show String.mk (stripL (String.mk (stripL w.toList)).toList) = String.mk (stripL w.toList)
    show String.mk (stripL (stripL w.toList)) = String.mk (stripL w.toList)
    rw [stripL_idem]
  have hc1 : dropTrailing (fun c => c == ':') (pyStrip w).toList = (pyStrip w).toList := by
    apply dropTrailing_of_getLast?
    intro c hc
    rw [beq_eq_false_iff_ne]
    intro hcc
    subst hcc
    exact h1 hc
  have hcolon : pyRstrip ':' (pyStrip w) = pyStrip w := by
    show String.mk (dropTrailing (fun c => c == ':') (pyStrip w).toList) = pyStrip w
    rw [hc1]
    rfl
  have hp1 : removeTrailingParenL (pyStrip w).toList = (pyStrip w).toList := by
    apply removeTrailingParenL_stable
    · exact dropTrailing_stripL _
    · rw [beq_eq_false_iff_ne]; exact h2
  have hparen : removeTrailingParen (pyStrip w) = pyStrip w := by
    show String.mk (removeTrailingParenL (pyStrip w).toList) = pyStrip w
    rw [hp1]
    rfl
  rw [hstrip, hcolon, hparen, hstrip]

/-- C7 witness: "Blue (2023)" cleans to "Blue", which is stable, so the
amended idempotence applies to it. -/
theorem c7_clean_idempotent_witness :
    clean_tee_name (clean_tee_name "Blue (2023)") = clean_tee_name "Blue (2023)" :=
  c7_clean_idempotent_on_stable "Blue (2023)" (by decide) (by decide)

/-- C8 counterexample: the cleaner strips ALL trailing colons, not a
single one; "Blue::" does not keep one colon. -/
theorem c8_single_colon_false : ¬ (clean_tee_name "Blue::" = "Blue:") := by decide

/-- C8 as amended: the normalizer strips surrounding whitespace, strips
all trailing colons, removes one trailing parenthetical group anchored
at the end, and trims again; "Blue::" loses both colons and the spec's
own scenario "Championship (2023):" still normalizes to
"Championship". -/
theorem c8_clean_algorithm :
    (∀ x, clean_tee_name x = clean_tee_name_spec x) ∧
    clean_tee_name "Blue::" = "Blue" ∧
    clean_tee_name "Championship (2023):" = "Championship" :=
  ⟨fun _ => rfl, by decide, by decide⟩

/-- C10: the tee color mapper is total and always returns one of the
eight canonical colors; in particular "yellow" is never returned (a
yellow match is rewritten to gold). -/
theorem c10_color_total (s : String) :
    guess_tee_color s ∈ ["black", "blue", "white", "gold", "red", "green", "silver", "gray"] := by
  unfold guess_tee_color
  rcases h : colorScanList.find? (fun c => strContains (pyLower s) c) with _ | c
  · simp only [h]
    repeat' split
    all_goals decide
  · have hm := List.mem_of_find?_eq_some h
    simp only [colorScanList, List.mem_cons, List.not_mem_nil, or_false] at hm
    simp only [h]
    rcases hm with rfl | rfl | rfl | rfl | rfl | rfl | rfl | rfl <;> decide

theorem parse_eq_postProcess (i : ScorecardInput) (m : RowMaps)
    (hm : extractMaps i = .ok (some m)) :
    parse_scorecard i = postProcess m := by
  unfold parse_scorecard
  rw [hm]
  rfl

theorem allInts?_nil (l : List HKey) (h : allInts? l = some []) : l = [] := by
  cases l with
  | nil => rfl
  | cons k ks =>
    cases k with
    | int n =>
      simp only [allInts?] at h
      cases allInts? ks <;> simp at h
    | str s => simp [allInts?] at h

theorem foldr_keys_nil (ts : List (String × HMap))
    (h : ts.foldr (fun t acc => t.2.map (·.1) ++ acc) [] = []) : ∀ t ∈ ts, t.2 = [] := by
  induction ts with
  | nil => intro t ht; simp at ht
  | cons t0 rest ih =>
    simp only [List.foldr_cons, List.append_eq_nil] at h
    intro t ht
    rcases List.mem_cons.mp ht with rfl | hmem
    · exact List.map_eq_nil_iff.mp h.1
    · exact ih h.2 t hmem

theorem foldr_keys_nil_of (ts : List (String × HMap))
    (h : ∀ t ∈ ts, t.2 = []) : ts.foldr (fun t acc => t.2.map (·.1) ++ acc) [] = [] := by
  induction ts with
  | nil => rfl
  | cons t0 rest ih =>
    simp only [List.foldr_cons]
    rw [h t0 (List.mem_cons_self _ _)]
    simp only [List.map_nil, List.nil_append]
    exact ih (fun t ht => h t (List.mem_cons_of_mem _ ht))

theorem allHoleKeys_nil (m : RowMaps) (h : allHoleKeys m = []) :
    m.par = [] ∧ ∀ t ∈ m.tees, t.2 = [] := by
  unfold allHoleKeys at h
  rw [List.append_eq_nil] at h
  exact ⟨List.map_eq_nil_iff.mp h.1, foldr_keys_nil m.tees h.2⟩

theorem allHoleKeys_nil_of (m : RowMaps) (hpar : m.par = [])
    (hsubs : ∀ t ∈ m.tees, t.2 = []) : allHoleKeys m = [] := by
  unfold allHoleKeys
  rw [hpar, foldr_keys_nil_of m.tees hsubs]
  rfl

theorem postProcess_none_iff (m : RowMaps) :
    postProcess m = .ok none ↔ (m.par = [] ∧ ∀ t ∈ m.tees, t.2 = []) := by
  constructor
  · intro h
    unfold postProcess at h
    by_cases h1 : (m.par.isEmpty && m.tees.isEmpty) = true
    · rw [if_pos h1] at h
      rw [Bool.and_eq_true, List.isEmpty_iff, List.isEmpty_iff] at h1
      exact ⟨h1.1, by rw [h1.2]; intro t ht; simp at ht⟩
    · rw [if_neg h1] at h
      cases h2 : allInts? (allHoleKeys m) with
      | none => rw [h2] at h; simp at h
      | some ints =>
        rw [h2] at h
        cases ints with
        | nil => exact allHoleKeys_nil m (allInts?_nil _ h2)
        | cons x xs => simp at h
  · intro ⟨hpar, hsubs⟩
    unfold postProcess
    by_cases h1 : (m.par.isEmpty && m.tees.isEmpty) = true
    · rw [if_pos h1]
    · rw [if_neg h1]
      rw [allHoleKeys_nil_of m hpar hsubs]
      rfl

/-- C6 counterexample: on a per-hole scorecard whose one tee has an
unparseable yards value, the tee map is nonempty (it holds an empty
sub-map created before the int() attempt) yet parse_scorecard still
returns the sentinel, so "sentinel exactly when both maps are empty" is
false. -/
theorem c6_empty_submap_sentinel :
    extractMaps (.decoded c6cex) = .ok (some c6maps) ∧ c6maps.tees ≠ [] ∧
      parse_scorecard (.decoded c6cex) = .ok none :=
  ⟨rfl, by decide, rfl⟩

/-- C6 as amended: for every input whose maps are extracted, the
sentinel is returned exactly when the par map is empty and every
collected tee has an empty per-hole map (in particular when both maps
are empty, so a handicap-only scorecard still yields the sentinel, and
any par entry or any tee hole yardage yields a non-sentinel result). -/
theorem c6_sentinel_iff_no_hole_data (i : ScorecardInput) (m : RowMaps)
    (hm : extractMaps i = .ok (some m)) :
    parse_scorecard i = .ok none ↔ (m.par = [] ∧ ∀ t ∈ m.tees, t.2 = []) := by
  rw [parse_eq_postProcess i m hm]
  exact postProcess_none_iff m

/-- C6 witness: a handicap-only scorecard extracts empty par and tee
maps, and the amended criterion yields the sentinel on it. -/
theorem c6_sentinel_witness : parse_scorecard (.decoded c6winput) = .ok none :=
  (c6_sentinel_iff_no_hole_data (.decoded c6winput) ⟨[], [(.int 1, 7)], []⟩ rfl).mpr
    ⟨rfl, by simp⟩

/-- C2 counterexample: with par data at hole 1 and handicap data at
holes 1 and 2, the claim predicts num_holes = 2 (handicap extends the
range), but the code returns num_holes = 1 and drops the hole 2
handicap with it. -/
theorem c2_handicap_hole_ignored :
    parse_scorecard (.decoded c2cex) = .ok (some c2result) ∧ c2result.num_holes ≠ 2 :=
  ⟨rfl, by decide⟩

/-- C2 as amended: for every accepted scorecard, num_holes is the
maximum of the hole numbers seen across par and tee-yardage data only
(allHoleKeys does not consult the handicap map), and within range
1..num_holes missing holes default to 0 for par and yardage and to
absent for handicap. -/
theorem c2_num_holes_from_par_and_tees (i : ScorecardInput) (m : RowMaps)
    (r : ParsedScorecard)
    (hm : extractMaps i = .ok (some m)) (hp : parse_scorecard i = .ok (some r)) :
    ∃ x xs, allInts? (allHoleKeys m) = some (x :: xs) ∧
      r = postFields m (maxOf x xs) ∧
      r.num_holes = maxOf x xs ∧
      r.par.holes = mapRangeD m.par (holeRange r.num_holes) ∧
      r.handicap = handicapOf m.hcp (holeRange r.num_holes) ∧
      r.tee_yardages = m.tees.map (fun t => (t.1, teeParsedOf t.2 (holeRange r.num_holes))) := by
  rw [parse_eq_postProcess i m hm] at hp
  unfold postProcess at hp
  by_cases h1 : (m.par.isEmpty && m.tees.isEmpty) = true
  · rw [if_pos h1] at hp; simp at hp
  · rw [if_neg h1] at hp
    cases h2 : allInts? (allHoleKeys m) with
    | none => rw [h2] at hp; simp at hp
    | some ints =>
      rw [h2] at hp
      cases ints with
      | nil => simp at hp
      | cons x xs =>
        simp only [Except.ok.injEq, Option.some.injEq] at hp
        subst hp
        exact ⟨x, xs, rfl, rfl, rfl, rfl, rfl, rfl⟩

/-- C2 witness: the amended statement instantiated on a par-only
scorecard with one hole. -/
theorem c2_num_holes_witness :
    ∃ x xs, allInts? (allHoleKeys ⟨[(.int 1, 4)], [], []⟩) = some (x :: xs) ∧
      c2result = postFields ⟨[(.int 1, 4)], [], []⟩ (maxOf x xs) ∧
      c2result.num_holes = maxOf x xs ∧
      c2result.par.holes = mapRangeD [(.int 1, 4)] (holeRange c2result.num_holes) ∧
      c2result.handicap = handicapOf [] (holeRange c2result.num_holes) ∧
      c2result.tee_yardages =
        ([] : List (String × HMap)).map
          (fun t => (t.1, teeParsedOf t.2 (holeRange c2result.num_holes))) :=
  c2_num_holes_from_par_and_tees (.decoded c2winput) ⟨[(.int 1, 4)], [], []⟩ c2result rfl rfl

theorem processTeeEntry_skip (st : AsmState) (t : JVal) (k : String)
    (hk : teeKeyOf t = .ok k) (hmem : amem st.final_tees k = true) :
    processTeeEntry st t = .ok st := by
  cases t with
  | obj tkvs =>
    have hk' : (match pyGetD tkvs "tee_name" (.str "Unknown") with
        | JVal.str ns => Except.ok (pyLower (clean_tee_name ns))
        | _ => (Except.error () : Except Unit String)) = Except.ok k := hk
    cases hn : pyGetD tkvs "tee_name" (.str "Unknown") with
    | str ns =>
      rw [hn] at hk'
      simp only [Except.ok.injEq] at hk'
      simp only [processTeeEntry]
      rw [hn]
      simp only
      rw [← hk'] at hmem
      rw [if_pos hmem]
    | null => rw [hn] at hk'; exact Except.noConfusion hk'
    | bool b => rw [hn] at hk'; exact Except.noConfusion hk'
    | int n => rw [hn] at hk'; exact Except.noConfusion hk'
    | arr xs => rw [hn] at hk'; exact Except.noConfusion hk'
    | obj kvs2 => rw [hn] at hk'; exact Except.noConfusion hk' 
  | null => exact Except.noConfusion hk
  | bool b => exact Except.noConfusion hk
  | int n => exact Except.noConfusion hk
  | str s => exact Except.noConfusion hk
  | arr xs => exact Except.noConfusion hk

/-- C3: in the male-then-female iteration, an entry whose
(case-insensitively cleaned) tee name is already present is dropped
entirely (the loop state is unchanged), so the first occurrence wins;
on the spec fixture the assembled Blue tee keeps the male section's
6200 total yards. -/
theorem c3_first_occurrence_wins :
    (∀ (st : AsmState) (t : JVal) (rest : List JVal) (k : String),
        teeKeyOf t = .ok k → amem st.final_tees k = true →
        (t :: rest).foldlM processTeeEntry st = rest.foldlM processTeeEntry st) ∧
    assembleTees c3obj = .ok [c3tee] ∧
    pyGet? c3tee "total_yardage" = some (.int 6200) := by
  refine ⟨?_, rfl, rfl⟩
  intro st t rest k hk hmem
  rw [List.foldlM_cons, processTeeEntry_skip st t k hk hmem]
  rfl

/-- C3 witness: a duplicate Blue entry processed against a state already
holding the key "blue" contributes nothing. -/
theorem c3_first_occurrence_witness :
    [c3dup].foldlM processTeeEntry c3st = ([] : List JVal).foldlM processTeeEntry c3st :=
  c3_first_occurrence_wins.1 c3st c3dup [] "blue" rfl rfl

theorem insertDescK_mem {α : Type} (x y : Int × α) (l : List (Int × α))
    (h : y ∈ insertDescK x l) : y = x ∨ y ∈ l := by
  induction l with
  | nil => simp [insertDescK] at h; exact Or.inl h
  | cons z zs ih =>
    simp only [insertDescK] at h
    by_cases hc : x.1 ≤ z.1
    · rw [if_pos hc] at h
      rcases List.mem_cons.mp h with rfl | h2
      · exact Or.inr (List.mem_cons_self _ _)
      · rcases ih h2 with h3 | h3
        · exact Or.inl h3
        · exact Or.inr (List.mem_cons_of_mem _ h3)
    · rw [if_neg hc] at h
      rcases List.mem_cons.mp h with rfl | h2
      · exact Or.inl rfl
      · exact Or.inr h2

theorem insertDescK_pairwise {α : Type} (x : Int × α) (l : List (Int × α))
    (h : l.Pairwise (fun a b => b.1 ≤ a.1)) :
    (insertDescK x l).Pairwise (fun a b => b.1 ≤ a.1) := by
  induction l with
  | nil => simp [insertDescK]
  | cons z zs ih =>
    rw [List.pairwise_cons] at h
    simp only [insertDescK]
    by_cases hc : x.1 ≤ z.1
    · rw [if_pos hc]
      rw [List.pairwise_cons]
      constructor
      · intro y hy
        rcases insertDescK_mem x y zs hy with rfl | hy2
        · exact hc
        · exact h.1 y hy2
      · exact ih h.2
    · rw [if_neg hc]
      push_neg at hc
      rw [List.pairwise_cons]
      constructor
      · intro y hy
        rcases List.mem_cons.mp hy with rfl | hy2
        · exact le_of_lt hc
        · exact le_trans (h.1 y hy2) (le_of_lt hc)
      · rw [List.pairwise_cons]
        exact h
    
theorem insertDescK_filter {α : Type} (x : Int × α) (l : List (Int × α)) (k : Int)
    (h : l.Pairwise (fun a b => b.1 ≤ a.1)) :
    (insertDescK x l).filter (fun p => p.1 = k) =
      l.filter (fun p => p.1 = k) ++ if x.1 = k then [x] else [] := by
  induction l with
  | nil =>
    simp only [insertDescK, List.filter_nil, List.nil_append]
    by_cases hx : x.1 = k
    · simp [hx]
    · simp [hx]
  | cons z zs ih =>
    rw [List.pairwise_cons] at h
    simp only [insertDescK]
    by_cases hc : x.1 ≤ z.1
    · rw [if_pos hc]
      rw [List.filter_cons, List.filter_cons]
      by_cases hz : z.1 = k
      · simp only [hz, decide_eq_true_eq, if_pos trivial]
        rw [ih h.2]
        rfl
      · rw [if_neg (by simpa using hz), if_neg (by simpa using hz)]
        exact ih h.2
    · rw [if_neg hc]
      push_neg at hc
      by_cases hx : x.1 = k
      · have hzs : (z :: zs).filter (fun p => decide (p.1 = k)) = [] := by
          rw [List.filter_eq_nil_iff]
          intro p hp
          have hple : p.1 ≤ z.1 := by
            rcases List.mem_cons.mp hp with rfl | hp2
            · exact le_refl _
            · exact h.1 p hp2
          have : p.1 < x.1 := lt_of_le_of_lt hple hc
          simp only [decide_eq_true_eq]
          intro hpk
          rw [hpk, hx] at this
          exact lt_irrefl k this
        rw [List.filter_cons, if_pos (by simpa using hx), hzs]
        simp [hx]
      · rw [List.filter_cons, if_neg (by simpa using hx)]
        simp [hx]

theorem foldl_insert_pairwise {α : Type} (l acc : List (Int × α))
    (h : acc.Pairwise (fun a b => b.1 ≤ a.1)) :
    (l.foldl (fun a x => insertDescK x a) acc).Pairwise (fun a b => b.1 ≤ a.1) := by
  induction l generalizing acc with
  | nil => exact h
  | cons x xs ih =>
    rw [List.foldl_cons]
    exact ih _ (insertDescK_pairwise x acc h)

theorem foldl_insert_filter {α : Type} (l acc : List (Int × α)) (k : Int)
    (h : acc.Pairwise (fun a b => b.1 ≤ a.1)) :
    (l.foldl (fun a x => insertDescK x a) acc).filter (fun p => p.1 = k) =
      acc.filter (fun p => p.1 = k) ++ l.filter (fun p => p.1 = k) := by
  induction l generalizing acc with
  | nil => simp
  | cons x xs ih =>
    rw [List.foldl_cons, ih _ (insertDescK_pairwise x acc h),
        insertDescK_filter x acc k h, List.filter_cons]
    by_cases hx : x.1 = k
    · rw [if_pos hx]
      rw [if_pos (show decide (x.1 = k) = true by simpa using hx)]
      simp
    · rw [if_neg hx]
      rw [if_neg (show ¬(decide (x.1 = k) = true) by simpa using hx)]
      simp

theorem foldl_insert_mem {α : Type} (l acc : List (Int × α)) (y : Int × α)
    (h : y ∈ l.foldl (fun a x => insertDescK x a) acc) : y ∈ acc ∨ y ∈ l := by
  induction l generalizing acc with
  | nil => exact Or.inl h
  | cons x xs ih =>
    rw [List.foldl_cons] at h
    rcases ih _ h with h2 | h2
    · rcases insertDescK_mem x y acc h2 with rfl | h3
      · exact Or.inr (List.mem_cons_self _ _)
      · exact Or.inl h3
    · exact Or.inr (List.mem_cons_of_mem _ h2)

theorem sortedDescK_pairwise {α : Type} (l : List (Int × α)) :
    (sortedDescK l).Pairwise (fun a b => b.1 ≤ a.1) :=
  foldl_insert_pairwise l [] List.Pairwise.nil

theorem sortedDescK_filter {α : Type} (l : List (Int × α)) (k : Int) :
    (sortedDescK l).filter (fun p => p.1 = k) = l.filter (fun p => p.1 = k) := by
  unfold sortedDescK
  rw [foldl_insert_filter l [] k List.Pairwise.nil]
  rfl

theorem sortedDescK_mem {α : Type} (l : List (Int × α)) (y : Int × α)
    (h : y ∈ sortedDescK l) : y ∈ l := by
  rcases foldl_insert_mem l [] y h with h2 | h2
  · simp at h2
  · exact h2

theorem keyedM_spec (l : List PyDict) (keyed : List (Int × PyDict))
    (h : l.mapM (fun t => match sortKey? t with
      | some n => Except.ok (n, t)
      | none => Except.error ()) = .ok keyed) :
    keyed.map (·.2) = l ∧ ∀ p ∈ keyed, sortKey? p.2 = some p.1 := by
  induction l generalizing keyed with
  | nil =>
    have h' : (Except.ok [] : Except Unit (List (Int × PyDict))) = .ok keyed := h
    cases h'
    exact ⟨rfl, by intro p hp; simp at hp⟩
  | cons t ts ih =>
    rw [List.mapM_cons] at h
    cases hf : sortKey? t with
    | none =>
      rw [hf] at h
      exact Except.noConfusion h
    | some n =>
      rw [hf] at h
      have h' : (ts.mapM (fun t => match sortKey? t with
          | some n => Except.ok (n, t)
          | none => Except.error ()) >>= fun xs =>
            (Except.ok ((n, t) :: xs) : Except Unit (List (Int × PyDict)))) = .ok keyed := h
      cases hm : ts.mapM (fun t => match sortKey? t with
          | some n => Except.ok (n, t)
          | none => Except.error ()) with
      | error e =>
        rw [hm] at h'
        exact Except.noConfusion h'
      | ok xs =>
        rw [hm] at h'
        have h'' : (Except.ok ((n, t) :: xs) : Except Unit (List (Int × PyDict))) = .ok keyed := h'
        cases h''
        obtain ⟨hmap, hprop⟩ := ih xs hm
        refine ⟨by rw [List.map_cons, hmap], ?_⟩
        intro p hp
        rcases List.mem_cons.mp hp with rfl | hp2
        · exact hf
        · exact hprop p hp2

theorem filter_map_snd (kl : List (Int × PyDict)) (k : Int)
    (hall : ∀ p ∈ kl, sortKey? p.2 = some p.1) :
    (kl.map (·.2)).filter (fun t => sortKey? t = some k) =
      (kl.filter (fun p => p.1 = k)).map (·.2) := by
  induction kl with
  | nil => rfl
  | cons p ps ih =>
    have hp := hall p (List.mem_cons_self _ _)
    have ih' := ih (fun q hq => hall q (List.mem_cons_of_mem _ hq))
    rw [List.map_cons, List.filter_cons, List.filter_cons]
    by_cases hk : p.1 = k
    · rw [if_pos (show decide (sortKey? p.2 = some k) = true by
          rw [hp, hk]; simp),
        if_pos (show decide (p.1 = k) = true by simpa using hk),
        List.map_cons, ih']
    · rw [if_neg (show ¬(decide (sortKey? p.2 = some k) = true) by
          rw [hp]; simpa using fun hnk => hk (Option.some.injEq .. ▸ hnk)),
        if_neg (show ¬(decide (p.1 = k) = true) by simpa using hk),
        ih']

/-- C9: whenever the assembler produces a tee list, that list is the
stable descending sort (by total_yardage or 0) of the insertion-ordered
tees: adjacent keys are non-increasing, and for every key value the
tees carrying it appear in exactly their pre-sort relative order. -/
theorem c9_tees_sorted_stable (obj : PyDict) (l : List PyDict)
    (h : assembleTees obj = .ok l) :
    ∃ l₀, assembleTeesCore obj = .ok l₀ ∧
      l.Pairwise (fun a b => (sortKey? b).getD 0 ≤ (sortKey? a).getD 0) ∧
      ∀ k : Int, l.filter (fun t => sortKey? t = some k) =
        l₀.filter (fun t => sortKey? t = some k) := by
  unfold assembleTees at h
  cases hc : assembleTeesCore obj with
  | error e =>
    rw [hc] at h
    exact Except.noConfusion h
  | ok l₀ =>
    rw [hc] at h
    have h' : sortTeesDesc l₀ = .ok l := h
    unfold sortTeesDesc at h'
    cases hm : l₀.mapM (fun t => match sortKey? t with
        | some n => Except.ok (n, t)
        | none => Except.error ()) with
    | error e =>
      rw [hm] at h'
      exact Except.noConfusion h'
    | ok keyed =>
      rw [hm] at h'
      have h'' : (Except.ok ((sortedDescK keyed).map (·.2)) : Except Unit (List PyDict)) =
          .ok l := h'
      obtain ⟨hmap, hprop⟩ := keyedM_spec l₀ keyed hm
      have hl : l = (sortedDescK keyed).map (·.2) :=
        ((Except.ok.injEq _ _).mp h'').symm
      subst hl
      refine ⟨l₀, rfl, ?_, ?_⟩
      · rw [List.pairwise_map]
        apply List.Pairwise.imp_of_mem ?_ (sortedDescK_pairwise keyed)
        intro a b ha hb hr
        have hA := hprop a (sortedDescK_mem keyed a ha)
        have hB := hprop b (sortedDescK_mem keyed b hb)
        rw [hA, hB]
        simpa using hr
      · intro k
        rw [filter_map_snd _ k (fun p hp => hprop p (sortedDescK_mem keyed p hp)),
            sortedDescK_filter keyed k, ← filter_map_snd _ k hprop, hmap]

/-- C9 witness: the fixture with one 6200-yard tee and two 5400-yard
tees sorts Blue first and keeps Red before White (their insertion
order). -/
theorem c9_tees_sorted_witness :
    ∃ l₀, assembleTeesCore c9obj = .ok l₀ ∧
      c9sorted.Pairwise (fun a b => (sortKey? b).getD 0 ≤ (sortKey? a).getD 0) ∧
      ∀ k : Int, c9sorted.filter (fun t => sortKey? t = some k) =
        l₀.filter (fun t => sortKey? t = some k) :=
  c9_tees_sorted_stable c9obj c9sorted rfl

theorem aget?_aset_same {κ α : Type} [BEq κ] [LawfulBEq κ] (d : List (κ × α)) (k : κ) (v : α) :
    aget? (aset d k v) k = some v := by
  induction d with
  | nil => simp [aset, aget?, List.find?]
  | cons kv rest ih =>
    obtain ⟨k', v'⟩ := kv
    simp only [aset]
    by_cases he : (k' == k) = true
    · rw [if_pos he]
      simp [aget?, List.find?]
    · rw [if_neg he]
      unfold aget? at ih ⊢
      rw [List.find?_cons_of_neg _ (by simpa using he)]
      exact ih

theorem aget?_aset_other {κ α : Type} [BEq κ] [LawfulBEq κ] (d : List (κ × α)) (k : κ) (v : α)
    (k' : κ) (h : k' ≠ k) : aget? (aset d k v) k' = aget? d k' := by
  induction d with
  | nil =>
    unfold aget? aset
    rw [List.find?_cons_of_neg _ (by simp only [beq_iff_eq]; exact fun he => h he.symm),
        List.find?_nil]
  | cons kv rest ih =>
    obtain ⟨k0, v0⟩ := kv
    simp only [aset]
    by_cases he : (k0 == k) = true
    · rw [if_pos he]
      unfold aget?
      rw [List.find?_cons_of_neg _ (by simp only [beq_iff_eq]; exact fun hx => h hx.symm),
          List.find?_cons_of_neg _ ?hne]
      case hne =>
        have hk0 : k0 = k := by simpa using he
        simp only [beq_iff_eq, hk0]
        exact fun hx => h hx.symm
    · rw [if_neg he]
      unfold aget? at ih ⊢
      by_cases h0 : (k0 == k') = true
      · rw [List.find?_cons_of_pos _ (by simpa using h0), List.find?_cons_of_pos _ (by simpa using h0)]
      · rw [List.find?_cons_of_neg _ (by simpa using h0), List.find?_cons_of_neg _ (by simpa using h0)]
        exact ih

theorem fillsOnly_refl (d : PyDict) : fillsOnly d d :=
  ⟨fun _ _ => rfl, fun _ => rfl, fun _ => rfl, fun _ => rfl⟩

theorem fillsOnly_trans (a b c : PyDict) (h1 : fillsOnly a b) (h2 : fillsOnly b c) :
    fillsOnly a c := by
  obtain ⟨f1, s1, r1, t1⟩ := h1
  obtain ⟨f2, s2, r2, t2⟩ := h2
  refine ⟨fun k hk => (f2 k hk).trans (f1 k hk), ?_, ?_, ?_⟩
  · intro hs
    have hb : pyGet? b "slope" = pyGet? a "slope" := s1 hs
    have hbs : truthy (pyGetD b "slope" .null) = true := by
      unfold pyGetD
      rw [hb]
      exact hs
    rw [s2 hbs, hb]
  · intro hs
    have hb : pyGet? b "rating" = pyGet? a "rating" := r1 hs
    have hbs : truthy (pyGetD b "rating" .null) = true := by
      unfold pyGetD
      rw [hb]
      exact hs
    rw [r2 hbs, hb]
  · intro hs
    have hb : pyGet? b "total_yardage" = pyGet? a "total_yardage" := t1 hs
    have hbs : truthy (pyGetD b "total_yardage" .null) = true := by
      unfold pyGetD
      rw [hb]
      exact hs
    rw [t2 hbs, hb]

theorem fillsOnly_pySet_slope (t : PyDict) (v : JVal)
    (hf : truthy (pyGetD t "slope" .null) = false) : fillsOnly t (pySet t "slope" v) := by
  refine ⟨?_, ?_, ?_, ?_⟩
  · intro k hk
    push_neg at hk
    exact aget?_aset_other t "slope" v k (by simpa using hk.1)
  · intro hs
    rw [hs] at hf
    exact absurd hf (by simp)
  · intro _
    exact aget?_aset_other t "slope" v "rating" (by decide)
  · intro _
    exact aget?_aset_other t "slope" v "total_yardage" (by decide)

theorem fillsOnly_pySet_rating (t : PyDict) (v : JVal)
    (hf : truthy (pyGetD t "rating" .null) = false) : fillsOnly t (pySet t "rating" v) := by
  refine ⟨?_, ?_, ?_, ?_⟩
  · intro k hk
    push_neg at hk
    exact aget?_aset_other t "rating" v k (by simpa using hk.2.1)
  · intro _
    exact aget?_aset_other t "rating" v "slope" (by decide)
  · intro hs
    rw [hs] at hf
    exact absurd hf (by simp)
  · intro _
    exact aget?_aset_other t "rating" v "total_yardage" (by decide)

theorem fillsOnly_pySet_total (t : PyDict) (v : JVal)
    (hf : truthy (pyGetD t "total_yardage" .null) = false) :
    fillsOnly t (pySet t "total_yardage" v) := by
  refine ⟨?_, ?_, ?_, ?_⟩
  · intro k hk
    push_neg at hk
    exact aget?_aset_other t "total_yardage" v k (by simpa using hk.2.2)
  · intro _
    exact aget?_aset_other t "total_yardage" v "slope" (by decide)
  · intro _
    exact aget?_aset_other t "total_yardage" v "rating" (by decide)
  · intro hs
    rw [hs] at hf
    exact absurd hf (by simp)

theorem fillsOnly_applyCustomFill (ct t : PyDict) : fillsOnly t (applyCustomFill ct t) := by
  unfold applyCustomFill
  have step1 : fillsOnly t (if truthy (pyGetD ct "slope" .null) &&
      !truthy (pyGetD t "slope" .null) then pySet t "slope" (pyGetD ct "slope" .null) else t) := by
    by_cases hc : (truthy (pyGetD ct "slope" .null) && !truthy (pyGetD t "slope" .null)) = true
    · rw [if_pos hc]
      rw [Bool.and_eq_true, Bool.not_eq_true'] at hc
      exact fillsOnly_pySet_slope t _ hc.2
    · rw [if_neg hc]
      exact fillsOnly_refl t
  set t1 := (if truthy (pyGetD ct "slope" .null) && !truthy (pyGetD t "slope" .null) then
    pySet t "slope" (pyGetD ct "slope" .null) else t) with ht1
  have step2 : fillsOnly t1 (if truthy (pyGetD ct "rating" .null) &&
      !truthy (pyGetD t1 "rating" .null) then pySet t1 "rating" (pyGetD ct "rating" .null) else t1) := by
    by_cases hc : (truthy (pyGetD ct "rating" .null) && !truthy (pyGetD t1 "rating" .null)) = true
    · rw [if_pos hc]
      rw [Bool.and_eq_true, Bool.not_eq_true'] at hc
      exact fillsOnly_pySet_rating t1 _ hc.2
    · rw [if_neg hc]
      exact fillsOnly_refl t1
  set t2 := (if truthy (pyGetD ct "rating" .null) && !truthy (pyGetD t1 "rating" .null) then
    pySet t1 "rating" (pyGetD ct "rating" .null) else t1) with ht2
  have step3 : fillsOnly t2 (if truthy (pyGetD ct "yardage" .null) &&
      !truthy (pyGetD t2 "total_yardage" .null) then
        pySet t2 "total_yardage" (pyGetD ct "yardage" .null) else t2) := by
    by_cases hc : (truthy (pyGetD ct "yardage" .null) &&
        !truthy (pyGetD t2 "total_yardage" .null)) = true
    · rw [if_pos hc]
      rw [Bool.and_eq_true, Bool.not_eq_true'] at hc
      exact fillsOnly_pySet_total t2 _ hc.2
    · rw [if_neg hc]
      exact fillsOnly_refl t2
  exact fillsOnly_trans _ _ _ (fillsOnly_trans _ _ _ step1 step2) step3

theorem updateMatchingTee_forall₂ (ct : PyDict) (nm : String) (l l' : List PyDict)
    (h : updateMatchingTee ct nm l = .ok l') : List.Forall₂ fillsOnly l l' := by
  induction l generalizing l' with
  | nil =>
    have h' : (Except.ok [] : Except Unit (List PyDict)) = .ok l' := h
    cases h'
    exact List.Forall₂.nil
  | cons t rest ih =>
    unfold updateMatchingTee at h
    cases hn : lowerName t with
    | error e =>
      rw [hn] at h
      exact Except.noConfusion h
    | ok s =>
      rw [hn] at h
      have h2 : (if (s == nm) = true then Except.ok (applyCustomFill ct t :: rest)
          else (do
            let rest' ← updateMatchingTee ct nm rest
            Except.ok (t :: rest') : Except Unit (List PyDict))) = Except.ok l' := h
      by_cases he : (s == nm) = true
      · rw [if_pos he] at h2
        cases h2
        exact List.Forall₂.cons (fillsOnly_applyCustomFill ct t)
          (List.forall₂_same.mpr (fun x _ => fillsOnly_refl x))
      · rw [if_neg he] at h2
        cases hr : updateMatchingTee ct nm rest with
        | error e =>
          rw [hr] at h2
          exact Except.noConfusion h2
        | ok rest' =>
          rw [hr] at h2
          have h' : (Except.ok (t :: rest') : Except Unit (List PyDict)) = .ok l' := h2
          cases h'
          exact List.Forall₂.cons (fillsOnly_refl t) (ih rest' hr)

theorem foldlM_inv {σ ι : Type} (step : σ → ι → Except Unit σ) (inv : σ → Prop)
    (hstep : ∀ s x s', inv s → step s x = .ok s' → inv s') :
    ∀ (l : List ι) (s s' : σ), inv s → l.foldlM step s = .ok s' → inv s' := by
  intro l
  induction l with
  | nil =>
    intro s s' hs h
    have h' : (Except.ok s : Except Unit σ) = .ok s' := h
    cases h'
    exact hs
  | cons a t ih =>
    intro s s' hs h
    rw [List.foldlM_cons] at h
    cases ha : step s a with
    | error e =>
      rw [ha] at h
      exact Except.noConfusion h
    | ok s1 =>
      rw [ha] at h
      exact ih s1 s' (hstep s a s1 hs ha) h

theorem forall₂_fillsOnly_trans (a b c : List PyDict)
    (h1 : List.Forall₂ fillsOnly a b) (h2 : List.Forall₂ fillsOnly b c) :
    List.Forall₂ fillsOnly a c := by
  induction h1 generalizing c with
  | nil =>
    cases h2
    exact List.Forall₂.nil
  | cons hab htail ih =>
    cases h2 with
    | cons hbc h2tail =>
      exact List.Forall₂.cons (fillsOnly_trans _ _ _ hab hbc) (ih _ h2tail)

theorem mergeCustomStep_inv (tees0 : List PyDict) (names : List String) (appendable : Bool)
    (acc acc' : List PyDict × Bool) (ct : JVal)
    (hinv : tees0.length ≤ acc.1.length ∧
      List.Forall₂ fillsOnly tees0 (acc.1.take tees0.length))
    (h : mergeCustomStep names appendable acc ct = .ok acc') :
    tees0.length ≤ acc'.1.length ∧
      List.Forall₂ fillsOnly tees0 (acc'.1.take tees0.length) := by
  unfold mergeCustomStep at h
  cases ct with
  | obj ctD =>
    have h1 : (do
        let ct_name ← lowerName ctD
        if names.contains ct_name = true then
          (do
            let tees' ← updateMatchingTee ctD ct_name acc.1
            Except.ok ((tees', acc.2) : List PyDict × Bool))
        else if appendable = true then
          (do
            let nt ← appendedCustomTee ctD
            Except.ok ((acc.1 ++ [nt], true) : List PyDict × Bool))
        else .error () : Except Unit (List PyDict × Bool)) = .ok acc' := h
    cases hn : lowerName ctD with
    | error e =>
      rw [hn] at h1
      exact Except.noConfusion h1
    | ok ct_name =>
      rw [hn] at h1
      have h2 : (if names.contains ct_name = true then
          (do
            let tees' ← updateMatchingTee ctD ct_name acc.1
            Except.ok ((tees', acc.2) : List PyDict × Bool))
          else if appendable = true then
            (do
              let nt ← appendedCustomTee ctD
              Except.ok ((acc.1 ++ [nt], true) : List PyDict × Bool))
          else .error ()) = .ok acc' := h1
      by_cases hc : names.contains ct_name = true
      · rw [if_pos hc] at h2
        cases hu : updateMatchingTee ctD ct_name acc.1 with
        | error e =>
          rw [hu] at h2
          exact Except.noConfusion h2
        | ok tees' =>
          rw [hu] at h2
          have h3 : (Except.ok ((tees', acc.2) : List PyDict × Bool)) = .ok acc' := h2
          cases h3
          have hf := updateMatchingTee_forall₂ ctD ct_name acc.1 tees' hu
          have hlen := List.Forall₂.length_eq hf
          refine ⟨by rw [← hlen]; exact hinv.1, ?_⟩
          exact forall₂_fillsOnly_trans _ _ _ hinv.2
            (List.forall₂_take tees0.length hf)
      · rw [if_neg hc] at h2
        by_cases hap : appendable = true
        · rw [if_pos hap] at h2
          cases hat : appendedCustomTee ctD with
          | error e =>
            rw [hat] at h2
            exact Except.noConfusion h2
          | ok nt =>
            rw [hat] at h2
            have h3 : (Except.ok ((acc.1 ++ [nt], true) : List PyDict × Bool)) = .ok acc' := h2
            cases h3
            constructor
            · simp only [List.length_append, List.length_cons, List.length_nil]
              exact le_trans hinv.1 (Nat.le_add_right _ _)
            · rw [List.take_append_of_le_length hinv.1]
              exact hinv.2
        · rw [if_neg hap] at h2
          exact Except.noConfusion h2
  | null => exact Except.noConfusion h
  | bool b => exact Except.noConfusion h
  | int n => exact Except.noConfusion h
  | str s => exact Except.noConfusion h
  | arr xs => exact Except.noConfusion h

theorem mapM_obj_inv (xs : List JVal) (tees0 : List PyDict)
    (h : xs.mapM (fun t => match t with
      | JVal.obj d => Except.ok d
      | _ => Except.error ()) = .ok tees0) : xs = tees0.map JVal.obj := by
  induction xs generalizing tees0 with
  | nil =>
    have h' : (Except.ok [] : Except Unit (List PyDict)) = .ok tees0 := h
    cases h'
    rfl
  | cons x xs' ih =>
    rw [List.mapM_cons] at h
    cases x with
    | obj d =>
      have h' : (xs'.mapM (fun t => match t with
          | JVal.obj d => Except.ok d
          | _ => Except.error ()) >>= fun rest =>
            (Except.ok (d :: rest) : Except Unit (List PyDict))) = .ok tees0 := h
      cases hm : xs'.mapM (fun t => match t with
          | JVal.obj d => Except.ok d
          | _ => Except.error ()) with
      | error e =>
        rw [hm] at h'
        exact Except.noConfusion h'
      | ok rest =>
        rw [hm] at h'
        have h'' : (Except.ok (d :: rest) : Except Unit (List PyDict)) = .ok tees0 := h'
        cases h''
        rw [List.map_cons, ← ih rest hm]
    | null => exact Except.noConfusion h
    | bool b => exact Except.noConfusion h
    | int n => exact Except.noConfusion h
    | str s => exact Except.noConfusion h
    | arr ys => exact Except.noConfusion h

/-- C4: whenever the stored custom tees merge successfully into a course
record whose "tees" key holds a list, every pre-existing tee is only
filled, never overwritten: the output tee list starts with one entry per
input tee, each related to its original by fillsOnly (slope, rating and
total_yardage may go from non-truthy to the custom value; a present
truthy value and every other field are unchanged), and any extra entries
are appended after them. In particular an existing tee with slope 120
merged with a same-named custom entry with slope 130 keeps slope 120. -/
theorem c4_merge_fills_only (cts : List JVal) (course out : PyDict) (xs : List JVal)
    (hxs : pyGet? course "tees" = some (.arr xs))
    (h : merge_custom_tees cts course = .ok out) :
    ∃ (tees0 cur : List PyDict), xs = tees0.map JVal.obj ∧
      pyGet? out "tees" = some (.arr (cur.map JVal.obj)) ∧
      tees0.length ≤ cur.length ∧
      List.Forall₂ fillsOnly tees0 (cur.take tees0.length) := by
  simp only [merge_custom_tees] at h
  rw [hxs] at h
  have h1 : (do
      let tees0 ← xs.mapM (fun t => match t with
        | JVal.obj d => Except.ok d
        | _ => Except.error ())
      let names ← tees0.mapM lowerName
      let res ← cts.foldlM (mergeCustomStep names true) (tees0, false)
      Except.ok (pySet course "tees" (.arr (res.1.map JVal.obj)))
      : Except Unit PyDict) = .ok out := h
  cases hm : xs.mapM (fun t => match t with
      | JVal.obj d => Except.ok d
      | _ => Except.error ()) with
  | error e =>
    rw [hm] at h1
    exact Except.noConfusion h1
  | ok tees0 =>
    rw [hm] at h1
    have h2 : (do
        let names ← tees0.mapM lowerName
        let res ← cts.foldlM (mergeCustomStep names true) (tees0, false)
        Except.ok (pySet course "tees" (.arr (res.1.map JVal.obj)))
        : Except Unit PyDict) = .ok out := h1
    cases hn : tees0.mapM lowerName with
    | error e =>
      rw [hn] at h2
      exact Except.noConfusion h2
    | ok names =>
      rw [hn] at h2
      have h3 : (do
          let res ← cts.foldlM (mergeCustomStep names true) (tees0, false)
          Except.ok (pySet course "tees" (.arr (res.1.map JVal.obj)))
          : Except Unit PyDict) = .ok out := h2
      cases hf : cts.foldlM (mergeCustomStep names true) (tees0, false) with
      | error e =>
        rw [hf] at h3
        exact Except.noConfusion h3
      | ok res =>
        rw [hf] at h3
        have h4 : (Except.ok (pySet course "tees" (.arr (res.1.map JVal.obj)))
            : Except Unit PyDict) = .ok out := h3
        cases h4
        refine ⟨tees0, res.1, mapM_obj_inv xs tees0 hm,
          aget?_aset_same course "tees" _, ?_⟩
        have hinv0 : tees0.length ≤ (tees0, false).1.length ∧
            List.Forall₂ fillsOnly tees0 ((tees0, false).1.take tees0.length) := by
          refine ⟨le_refl _, ?_⟩
          rw [List.take_length]
          exact List.forall₂_same.mpr (fun d _ => fillsOnly_refl d)
        exact foldlM_inv (mergeCustomStep names true)
          (fun acc => tees0.length ≤ acc.1.length ∧
            List.Forall₂ fillsOnly tees0 (acc.1.take tees0.length))
          (fun s x s' hs hst => mergeCustomStep_inv tees0 names true s s' x hs hst)
          cts (tees0, false) res hinv0 hf

/-- C4 witness: the fixture course with a Blue tee of slope 120 merged
with a custom Blue tee of slope 130 comes back unchanged, and the claim
theorem applies to it concretely. -/
theorem c4_merge_witness :
    merge_custom_tees c4cts c4course = .ok c4course ∧
    ∃ (tees0 cur : List PyDict),
      [JVal.obj [("name", JVal.str "Blue"), ("slope", JVal.int 120)]] = tees0.map JVal.obj ∧
      pyGet? c4course "tees" = some (.arr (cur.map JVal.obj)) ∧
      tees0.length ≤ cur.length ∧
      List.Forall₂ fillsOnly tees0 (cur.take tees0.length) :=
  ⟨rfl, c4_merge_fills_only c4cts c4course c4course
    [JVal.obj [("name", JVal.str "Blue"), ("slope", JVal.int 120)]] rfl rfl⟩
